import Mathlib

/-!
# Verification of the kubestore key/value store backends

Shallow embedding of the four `Store` backends of the kubestore repository
(`configmap.go`, `secret.go`, `annotation.go`, `file.go`, plus the shared
helpers `isResourceMissingError` and the sentinel `ErrorKeyNotFound`).

Go maps are embedded as association lists (`List (String × String)`), a
merge-patch body as `List (String × Option String)` (`none` is the JSON
`null` tombstone), and Go `error` values as the inductive `Err`.  The
Kubernetes client and the local filesystem are external collaborators; each
backend operation is embedded twice:

* a *state* version, running against deterministic cluster/filesystem
  semantics (`cmClientGet`, `fsRemove`, ...), used for the algebraic and
  lifecycle properties; and
* a *With* version, taking the results of the underlying transport calls as
  parameters, used for the error-classification and error-propagation
  properties (these mirror exactly the `if err != nil` chains of the source).
-/

namespace Kubestore

/-- Go `error` values appearing in the embedded code: the process-wide
sentinel `ErrorKeyNotFound` (store.go), a direct `*errors.StatusError`
carrying a status code, an error wrapping another error (e.g. via
`fmt.Errorf("...: %w", err)`), the filesystem "does not exist" condition
recognised by `os.IsNotExist`, and other filesystem/transport failures. -/
inductive Err where
  | errorKeyNotFound : Err
  | statusError (code : Nat) : Err
  | wrapped (e : Err) : Err
  | fsNotExist : Err
  | fsError (msg : String) : Err
  | otherError (msg : String) : Err
deriving DecidableEq

/-- store.go: `ErrorKeyNotFound` — sentinel error for a missing key. -/
def ErrorKeyNotFound : Err := Err.errorKeyNotFound

/-- kube.go: `isResourceMissingError` — true only for a direct (unwrapped)
`*errors.StatusError` whose `ErrStatus.Code` equals 404; the Go type
assertion `err.(*errors.StatusError)` does not unwrap. -/
def isResourceMissingError : Err → Bool
  | .statusError code => code == 404
  | _ => false

/-- Models Go `os.IsNotExist`: recognises the "file or directory does not
exist" condition. -/
def osIsNotExist : Err → Bool
  | .fsNotExist => true
  | _ => false

/-- A Go `map[string]string`, embedded as an association list. -/
abbrev KVMap := List (String × String)

/-- A merge-patch fragment for a string map: `none` is the JSON `null`
tombstone that removes the entry, `some v` upserts it. -/
abbrev KVPatch := List (String × Option String)

/-- Lookup in a Go string map. -/
def lookupKV : KVMap → String → Option String
  | [], _ => none
  | (a, v) :: rest, k => if a = k then some v else lookupKV rest k

/-- Upsert into a Go string map. -/
def setKV : KVMap → String → String → KVMap
  | [], k, v => [(k, v)]
  | (a, w) :: rest, k, v => if a = k then (k, v) :: rest else (a, w) :: setKV rest k v

/-- Remove a key from a Go string map. -/
def removeKV : KVMap → String → KVMap
  | [], _ => []
  | (a, w) :: rest, k => if a = k then removeKV rest k else (a, w) :: removeKV rest k

/-- The key set of a Go string map. -/
def keysOf (m : KVMap) : List String := m.map Prod.fst

/-- RFC 7386 merge-patch application to a string map: `some v` upserts,
`null` (`none`) removes, all other entries are untouched. -/
def applyMergePatch : KVMap → KVPatch → KVMap
  | m, [] => m
  | m, (k, some v) :: rest => applyMergePatch (setKV m k v) rest
  | m, (k, none) :: rest => applyMergePatch (removeKV m k) rest

/-! ## ConfigMap backend (configmap.go) -/

/-- configmap.go: `configMapPatch` — the patch body, whose single `data`
field addresses the ConfigMap's data map. -/
structure ConfigMapPatchV where
  data : KVPatch

/-- The cluster-side state of the backing ConfigMap: `none` when the
ConfigMap does not exist, `some d` its data map when it does. -/
abbrev CMState := Option KVMap

/-- Kubernetes `Get` on the backing ConfigMap: 404 when absent. -/
def cmClientGet (s : CMState) : Except Err KVMap :=
  match s with
  | none => .error (.statusError 404)
  | some d => .ok d

/-- Kubernetes merge-`Patch` on the backing ConfigMap: 404 when absent,
otherwise applies the patch and returns the post-merge object. -/
def cmClientPatch (s : CMState) (p : ConfigMapPatchV) : Except Err KVMap × CMState :=
  match s with
  | none => (.error (.statusError 404), none)
  | some d =>
      let d2 := applyMergePatch d p.data
      (.ok d2, some d2)

/-- Kubernetes `Create` of an empty (name-only) ConfigMap: 409 AlreadyExists
when it already exists. -/
def cmClientCreate (s : CMState) : Except Err Unit × CMState :=
  match s with
  | none => (.ok (), some [])
  | some d => (.error (.statusError 409), some d)

/-- Kubernetes `Delete` of the backing ConfigMap: 404 when absent. -/
def cmClientDelete (s : CMState) : Except Err Unit × CMState :=
  match s with
  | none => (.error (.statusError 404), none)
  | some _ => (.ok (), none)

/-- configmap.go `Set`: the patch `{data: {key: data}}`. -/
def configMapSetPatch (key data : String) : ConfigMapPatchV := ⟨[(key, some data)]⟩

/-- configmap.go `Delete`: the tombstone patch `{data: {key: null}}`. -/
def configMapDeletePatch (key : String) : ConfigMapPatchV := ⟨[(key, none)]⟩

/-- configmap.go: `configMapStore.Get` against the cluster state. -/
def configMapGet {V : Type} (unmarshal : String → Except Err V) (s : CMState)
    (key : String) : Except Err V :=
  match cmClientGet s with
  | .error e => if isResourceMissingError e then .error ErrorKeyNotFound else .error e
  | .ok data =>
      match lookupKV data key with
      | none => .error ErrorKeyNotFound
      | some str => unmarshal str

/-- configmap.go: the recursive part of `configMapStore.Set` (patch; on a
not-found failure create the ConfigMap and recurse).  The Go recursion is
unbounded, so it is embedded with explicit fuel; `none` means the recursion
has not produced a result within the given fuel. -/
def cmSetGo (key data : String) : Nat → CMState → Option (Except Err Unit × CMState)
  | 0, _ => none
  | fuel + 1, s =>
      match cmClientPatch s (configMapSetPatch key data) with
      | (.ok _, s1) => some (.ok (), s1)
      | (.error e, s1) =>
          if isResourceMissingError e then
            match cmClientCreate s1 with
            | (.error ce, s2) => some (.error ce, s2)
            | (.ok _, s2) => cmSetGo key data fuel s2
          else
            some (.error e, s1)

/-- configmap.go: `configMapStore.Set` against the cluster state.  Fuel 2
suffices against the deterministic cluster semantics (proved below), so
`none` never actually occurs here. -/
def configMapSet {V : Type} (marshal : V → Except Err String) (s : CMState)
    (key : String) (v : V) : Option (Except Err Unit × CMState) :=
  match marshal v with
  | .error e => some (.error e, s)
  | .ok data => cmSetGo key data 2 s

/-- configmap.go: `configMapStore.List` against the cluster state. -/
def configMapList (s : CMState) : Except Err (List String) :=
  match cmClientGet s with
  | .error e => if isResourceMissingError e then .ok [] else .error e
  | .ok data => .ok (keysOf data)

/-- configmap.go: `configMapStore.Delete` against the cluster state: patch a
null tombstone; a not-found failure is a no-op success; if the post-merge
data map is empty, best-effort delete the ConfigMap, ignoring the result. -/
def configMapDelete (s : CMState) (key : String) : Except Err Unit × CMState :=
  match cmClientPatch s (configMapDeletePatch key) with
  | (.error e, s1) => if isResourceMissingError e then (.ok (), s1) else (.error e, s1)
  | (.ok data, s1) =>
      if data.length = 0 then
        let r := cmClientDelete s1
        (.ok (), r.2)
      else
        (.ok (), s1)

/-- configmap.go `Get`, parameterised by the result of the underlying
`client.Get` call (error-propagation view of the same control flow). -/
def configMapGetWith {V : Type} (unmarshal : String → Except Err V)
    (getRes : Except Err KVMap) (key : String) : Except Err V :=
  match getRes with
  | .error e => if isResourceMissingError e then .error ErrorKeyNotFound else .error e
  | .ok data =>
      match lookupKV data key with
      | none => .error ErrorKeyNotFound
      | some str => unmarshal str

/-- configmap.go `List`, parameterised by the result of `client.Get`. -/
def configMapListWith (getRes : Except Err KVMap) : Except Err (List String) :=
  match getRes with
  | .error e => if isResourceMissingError e then .ok [] else .error e
  | .ok data => .ok (keysOf data)

/-- configmap.go `Delete`, parameterised by the results of `client.Patch`
and of the best-effort `client.Delete`.  The second component records
whether the best-effort ConfigMap deletion was attempted (its result is
always discarded, exactly as `_ = c.delete(ctx)` discards it). -/
def configMapDeleteWith (patchRes : Except Err KVMap) (deleteRes : Except Err Unit) :
    Except Err Unit × Bool :=
  match patchRes with
  | .error e => if isResourceMissingError e then (.ok (), false) else (.error e, false)
  | .ok data =>
      if data.length = 0 then
        let _ := deleteRes
        (.ok (), true)
      else
        (.ok (), false)

/-- configmap.go `Set`, parameterised by the streams of results of the
successive `client.Patch` and `client.Create` calls (`patchRes i` /
`createRes i` is the result of the i-th call).  Fuel-indexed because the Go
recursion is unbounded; `none` means no result within the given fuel. -/
def configMapSetWith (patchRes : Nat → Except Err KVMap)
    (createRes : Nat → Except Err Unit) : Nat → Nat → Option (Except Err Unit)
  | 0, _ => none
  | fuel + 1, i =>
      match patchRes i with
      | .ok _ => some (.ok ())
      | .error e =>
          if isResourceMissingError e then
            match createRes i with
            | .error ce => some (.error ce)
            | .ok _ => configMapSetWith patchRes createRes fuel (i + 1)
          else
            some (.error e)

/-! ## Secret backend (secret.go) -/

/-- secret.go: `secretPatch` — the patch body, with both the binary `data`
field and the plaintext `stringData` side-channel field. -/
structure SecretPatchV where
  data : KVPatch
  stringData : KVPatch

/-- The cluster-side state of the backing Secret: `none` when absent,
`some d` its *materialized* binary data map when present. -/
abbrev SecState := Option KVMap

/-- Kubernetes `Get` on the backing Secret: 404 when absent. -/
def secClientGet (s : SecState) : Except Err KVMap :=
  match s with
  | none => .error (.statusError 404)
  | some d => .ok d

/-- Kubernetes merge-`Patch` on the backing Secret: 404 when absent;
otherwise the server merges the `data` field and then materializes the
`stringData` field into the binary data map (`stringData` wins over `data`
and is never stored itself), returning the post-merge object. -/
def secClientPatch (s : SecState) (p : SecretPatchV) : Except Err KVMap × SecState :=
  match s with
  | none => (.error (.statusError 404), none)
  | some d =>
      let d1 := applyMergePatch d p.data
      let d2 := applyMergePatch d1 p.stringData
      (.ok d2, some d2)

/-- Kubernetes `Create` of an empty (name-only) Secret: 409 when it already
exists. -/
def secClientCreate (s : SecState) : Except Err Unit × SecState :=
  match s with
  | none => (.ok (), some [])
  | some d => (.error (.statusError 409), some d)

/-- Kubernetes `Delete` of the backing Secret: 404 when absent. -/
def secClientDelete (s : SecState) : Except Err Unit × SecState :=
  match s with
  | none => (.error (.statusError 404), none)
  | some _ => (.ok (), none)

/-- secret.go `Set`: the patch `{stringData: {key: data}}` — values are
written through the plaintext `stringData` field only; `data` is untouched. -/
def secretSetPatch (key data : String) : SecretPatchV := ⟨[], [(key, some data)]⟩

/-- secret.go `Delete`: the tombstone patch `{data: {key: null}}` — the
tombstone goes into the binary `data` field, never into `stringData`. -/
def secretDeletePatch (key : String) : SecretPatchV := ⟨[(key, none)], []⟩

/-- secret.go: `secretStore.Get` against the cluster state — reads the key
from the materialized binary data map (`secret.Data`). -/
def secretGet {V : Type} (unmarshal : String → Except Err V) (s : SecState)
    (key : String) : Except Err V :=
  match secClientGet s with
  | .error e => if isResourceMissingError e then .error ErrorKeyNotFound else .error e
  | .ok data =>
      match lookupKV data key with
      | none => .error ErrorKeyNotFound
      | some str => unmarshal str

/-- secret.go: the recursive part of `secretStore.Set`, with explicit fuel
(the Go recursion is unbounded). -/
def secSetGo (key data : String) : Nat → SecState → Option (Except Err Unit × SecState)
  | 0, _ => none
  | fuel + 1, s =>
      match secClientPatch s (secretSetPatch key data) with
      | (.ok _, s1) => some (.ok (), s1)
      | (.error e, s1) =>
          if isResourceMissingError e then
            match secClientCreate s1 with
            | (.error ce, s2) => some (.error ce, s2)
            | (.ok _, s2) => secSetGo key data fuel s2
          else
            some (.error e, s1)

/-- secret.go: `secretStore.Set` against the cluster state. -/
def secretSet {V : Type} (marshal : V → Except Err String) (s : SecState)
    (key : String) (v : V) : Option (Except Err Unit × SecState) :=
  match marshal v with
  | .error e => some (.error e, s)
  | .ok data => secSetGo key data 2 s

/-- secret.go: `secretStore.List` against the cluster state. -/
def secretList (s : SecState) : Except Err (List String) :=
  match secClientGet s with
  | .error e => if isResourceMissingError e then .ok [] else .error e
  | .ok data => .ok (keysOf data)

/-- secret.go: `secretStore.Delete` against the cluster state. -/
def secretDelete (s : SecState) (key : String) : Except Err Unit × SecState :=
  match secClientPatch s (secretDeletePatch key) with
  | (.error e, s1) => if isResourceMissingError e then (.ok (), s1) else (.error e, s1)
  | (.ok data, s1) =>
      if data.length = 0 then
        let r := secClientDelete s1
        (.ok (), r.2)
      else
        (.ok (), s1)

/-- secret.go `Get`, parameterised by the result of `client.Get`. -/
def secretGetWith {V : Type} (unmarshal : String → Except Err V)
    (getRes : Except Err KVMap) (key : String) : Except Err V :=
  match getRes with
  | .error e => if isResourceMissingError e then .error ErrorKeyNotFound else .error e
  | .ok data =>
      match lookupKV data key with
      | none => .error ErrorKeyNotFound
      | some str => unmarshal str

/-- secret.go `List`, parameterised by the result of `client.Get`. -/
def secretListWith (getRes : Except Err KVMap) : Except Err (List String) :=
  match getRes with
  | .error e => if isResourceMissingError e then .ok [] else .error e
  | .ok data => .ok (keysOf data)

/-- secret.go `Delete`, parameterised by the results of `client.Patch` and
of the best-effort `client.Delete`; the Bool records whether the
best-effort Secret deletion was attempted. -/
def secretDeleteWith (patchRes : Except Err KVMap) (deleteRes : Except Err Unit) :
    Except Err Unit × Bool :=
  match patchRes with
  | .error e => if isResourceMissingError e then (.ok (), false) else (.error e, false)
  | .ok data =>
      if data.length = 0 then
        let _ := deleteRes
        (.ok (), true)
      else
        (.ok (), false)

/-- secret.go `Set`, parameterised by the streams of `client.Patch` and
`client.Create` results, fuel-indexed. -/
def secretSetWith (patchRes : Nat → Except Err KVMap)
    (createRes : Nat → Except Err Unit) : Nat → Nat → Option (Except Err Unit)
  | 0, _ => none
  | fuel + 1, i =>
      match patchRes i with
      | .ok _ => some (.ok ())
      | .error e =>
          if isResourceMissingError e then
            match createRes i with
            | .error ce => some (.error ce)
            | .ok _ => secretSetWith patchRes createRes fuel (i + 1)
          else
            some (.error e)

/-! ## Annotation backend (annotation.go) -/

/-- annotation.go: the constant `annotationPrefix = "kubestore"`. -/
def annPfx : String := "kubestore"

/-- annotation.go: `fmt.Sprintf("%s/%s", annotationPrefix, key)` — the full
annotation name for a logical key. -/
def annName (key : String) : String := annPfx ++ "/" ++ key

/-- Models Go `strings.HasPrefix pfx s` (argument order: prefix first). -/
def strHasPfx (pfx s : String) : Bool := pfx.data.isPrefixOf s.data

/-- Models Go `strings.TrimPrefix(s, pfx)` (argument order: prefix first). -/
def strTrimPfx (pfx s : String) : String :=
  if strHasPfx pfx s then String.mk (s.data.drop pfx.data.length) else s

/-- annotation.go: `metadataPatch` — the `annotations` fragment. -/
structure MetadataPatchV where
  annotations : KVPatch

/-- annotation.go: `annotationPatch` — the patch body `{metadata: {annotations: ...}}`. -/
structure AnnotationPatchV where
  metadata : MetadataPatchV

/-- The cluster-side state of the host resource the annotation backend is
bound to: `none` when the resource does not exist, `some m` its annotation
map when it does.  The resource is externally owned; only its annotations
are relevant to this backend. -/
abbrev AnnState := Option KVMap

/-- Kubernetes `Get` on the host resource: 404 when absent; returns its
annotation map (`resource.GetAnnotations()`). -/
def annClientGet (s : AnnState) : Except Err KVMap :=
  match s with
  | none => .error (.statusError 404)
  | some m => .ok m

/-- Kubernetes merge-`Patch` on the host resource's annotations: 404 when
the resource is absent, otherwise merges the annotations fragment. -/
def annClientPatch (s : AnnState) (p : AnnotationPatchV) : Except Err KVMap × AnnState :=
  match s with
  | none => (.error (.statusError 404), none)
  | some m =>
      let m2 := applyMergePatch m p.metadata.annotations
      (.ok m2, some m2)

/-- annotation.go `Set`: the patch `{metadata: {annotations: {annName key: data}}}`. -/
def annotationSetPatch (key data : String) : AnnotationPatchV :=
  ⟨⟨[(annName key, some data)]⟩⟩

/-- annotation.go `Delete`: the tombstone patch
`{metadata: {annotations: {annName key: null}}}`. -/
def annotationDeletePatch (key : String) : AnnotationPatchV :=
  ⟨⟨[(annName key, none)]⟩⟩

/-- annotation.go: `annotationStore.Get` against the cluster state. -/
def annotationGet {V : Type} (unmarshal : String → Except Err V) (s : AnnState)
    (key : String) : Except Err V :=
  match annClientGet s with
  | .error e => if isResourceMissingError e then .error ErrorKeyNotFound else .error e
  | .ok anns =>
      match lookupKV anns (annName key) with
      | none => .error ErrorKeyNotFound
      | some str => unmarshal str

/-- annotation.go: `annotationStore.Set` against the cluster state — no
creation on not-found: every patch error is returned as-is. -/
def annotationSet {V : Type} (marshal : V → Except Err String) (s : AnnState)
    (key : String) (v : V) : Except Err Unit × AnnState :=
  match marshal v with
  | .error e => (.error e, s)
  | .ok data =>
      match annClientPatch s (annotationSetPatch key data) with
      | (.error e, s1) => (.error e, s1)
      | (.ok _, s1) => (.ok (), s1)

/-- annotation.go `List`: the key extraction loop — keep only annotations
whose name starts with `annotationPrefix + "/"`, and strip that prefix. -/
def annotationListKeys (anns : KVMap) : List String :=
  anns.filterMap fun kv =>
    if strHasPfx (annPfx ++ "/") kv.1 then some (strTrimPfx (annPfx ++ "/") kv.1)
    else none

/-- annotation.go: `annotationStore.List` against the cluster state. -/
def annotationList (s : AnnState) : Except Err (List String) :=
  match annClientGet s with
  | .error e => if isResourceMissingError e then .ok [] else .error e
  | .ok anns => .ok (annotationListKeys anns)

/-- annotation.go: `annotationStore.Delete` against the cluster state — a
not-found patch failure is a no-op success; no host-resource cleanup. -/
def annotationDelete (s : AnnState) (key : String) : Except Err Unit × AnnState :=
  match annClientPatch s (annotationDeletePatch key) with
  | (.error e, s1) => if isResourceMissingError e then (.ok (), s1) else (.error e, s1)
  | (.ok _, s1) => (.ok (), s1)

/-- Lookup of a full annotation name in the host-resource state. -/
def annLookup (s : AnnState) (name : String) : Option String :=
  match s with
  | none => none
  | some m => lookupKV m name

/-- annotation.go `Get`, parameterised by the result of `client.Get`. -/
def annotationGetWith {V : Type} (unmarshal : String → Except Err V)
    (getRes : Except Err KVMap) (key : String) : Except Err V :=
  match getRes with
  | .error e => if isResourceMissingError e then .error ErrorKeyNotFound else .error e
  | .ok anns =>
      match lookupKV anns (annName key) with
      | none => .error ErrorKeyNotFound
      | some str => unmarshal str

/-- annotation.go `Set`, parameterised by the result of `client.Patch`:
`_, err = c.client.Patch(...); return err` — every error propagates. -/
def annotationSetWith (patchRes : Except Err KVMap) : Except Err Unit :=
  match patchRes with
  | .error e => .error e
  | .ok _ => .ok ()

/-- annotation.go `List`, parameterised by the result of `client.Get`. -/
def annotationListWith (getRes : Except Err KVMap) : Except Err (List String) :=
  match getRes with
  | .error e => if isResourceMissingError e then .ok [] else .error e
  | .ok anns => .ok (annotationListKeys anns)

/-- annotation.go `Delete`, parameterised by the result of `client.Patch`. -/
def annotationDeleteWith (patchRes : Except Err KVMap) : Except Err Unit :=
  match patchRes with
  | .error e => if isResourceMissingError e then .ok () else .error e
  | .ok _ => .ok ()

/-! ## Filesystem backend (file.go)

Paths are plain strings; `goJoin` models Go `filepath.Join` (concatenate
with "/" and lexically clean, resolving `.` and `..` without consulting the
filesystem), which is how file.go computes the backing file name
`filepath.Join(s.directory, key)`. -/

/-- Split a character list on `'/'` (second argument accumulates the
current component, reversed). -/
def splitSlash : List Char → List Char → List (List Char)
  | [], acc => [acc.reverse]
  | c :: rest, acc => if c = '/' then acc.reverse :: splitSlash rest [] else splitSlash rest (c :: acc)

/-- The component-processing loop of Go `filepath.Clean`: drop empty and
`.` components; `..` pops the previous component, except that at the root
of a rooted path it vanishes and in a relative path leading `..`s
accumulate. The second argument is the processed prefix, reversed. -/
def cleanParts (rooted : Bool) : List (List Char) → List (List Char) → List (List Char)
  | [], acc => acc.reverse
  | p :: rest, acc =>
      if p = [] ∨ p = ['.'] then cleanParts rooted rest acc
      else if p = ['.', '.'] then
        match acc with
        | [] => if rooted then cleanParts rooted rest [] else cleanParts rooted rest [['.', '.']]
        | q :: qs =>
            if q = ['.', '.'] then cleanParts rooted rest (p :: acc)
            else cleanParts rooted rest qs
      else cleanParts rooted rest (p :: acc)

/-- Re-join cleaned components with `'/'`. -/
def joinParts : List (List Char) → List Char
  | [] => []
  | [p] => p
  | p :: rest => p ++ '/' :: joinParts rest

/-- Models Go `filepath.Clean` on unix paths. -/
def goClean (path : String) : String :=
  let rooted : Bool :=
    match path.data with
    | '/' :: _ => true
    | _ => false
  let parts := cleanParts rooted (splitSlash path.data []) []
  match parts with
  | [] => if rooted then "/" else "."
  | _ => if rooted then String.mk ('/' :: joinParts parts) else String.mk (joinParts parts)

/-- Models Go `filepath.Join(dir, key)`: skip empty elements, join with
"/", then clean.  No sanitization of `key` beyond the lexical clean. -/
def goJoin (dir key : String) : String :=
  if dir = "" then
    if key = "" then "" else goClean key
  else goClean (dir ++ "/" ++ key)

/-- The local filesystem: files (full path → contents) and directories
(full paths). -/
structure FileSys where
  files : KVMap
  dirs : List String
deriving DecidableEq

/-- Is `path` strictly inside directory `dir` (any depth)? -/
def underDir (dir path : String) : Bool := strHasPfx (dir ++ "/") path

/-- Does directory `dir` contain any file or directory? -/
def dirNonEmpty (fs : FileSys) (dir : String) : Bool :=
  fs.files.any (fun kv => underDir dir kv.1) || fs.dirs.any (fun d => underDir dir d)

/-- Models Go `os.Remove`: removes a file, or an *empty* directory; a
non-empty directory yields an error, a missing path yields the
IsNotExist condition. -/
def fsRemove (fs : FileSys) (path : String) : Except Err Unit × FileSys :=
  match lookupKV fs.files path with
  | some _ => (.ok (), { fs with files := removeKV fs.files path })
  | none =>
      if fs.dirs.contains path then
        if dirNonEmpty fs path then (.error (.fsError "directory not empty"), fs)
        else (.ok (), { fs with dirs := fs.dirs.filter fun d => !(d == path) })
      else (.error .fsNotExist, fs)

/-- Models Go `os.MkdirAll`: idempotent directory creation. -/
def fsMkdirAll (fs : FileSys) (dir : String) : Except Err Unit × FileSys :=
  if fs.dirs.contains dir then (.ok (), fs)
  else (.ok (), { fs with dirs := dir :: fs.dirs })

/-- Models Go `ioutil.WriteFile`: create or fully overwrite. -/
def fsWriteFile (fs : FileSys) (path content : String) : Except Err Unit × FileSys :=
  (.ok (), { fs with files := setKV fs.files path content })

/-- Models Go `ioutil.ReadFile`. -/
def fsReadFile (fs : FileSys) (path : String) : Except Err String :=
  match lookupKV fs.files path with
  | some c => .ok c
  | none => .error .fsNotExist

/-- If `path` is a direct child of directory `dir`, its base name. -/
def isDirectChild (dir path : String) : Option String :=
  if strHasPfx (dir ++ "/") path then
    let rest := String.mk (path.data.drop (dir ++ "/").data.length)
    if rest.data.contains '/' then none else some rest
  else none

/-- Models Go `ioutil.ReadDir` followed by `info.Name()` extraction: the
base names of the direct children (files and subdirectories) of `dir`. -/
def fsReadDir (fs : FileSys) (dir : String) : Except Err (List String) :=
  if fs.dirs.contains dir then
    .ok ((fs.files.filterMap fun kv => isDirectChild dir kv.1) ++
      (fs.dirs.filterMap fun d => isDirectChild dir d))
  else .error .fsNotExist

/-- file.go: `fileStore.Get` — read `filepath.Join(directory, key)`; the
IsNotExist condition becomes the sentinel, other errors propagate. -/
def fileGet {V : Type} (unmarshal : String → Except Err V) (fs : FileSys)
    (directory key : String) : Except Err V :=
  let filename := goJoin directory key
  match fsReadFile fs filename with
  | .error e => if osIsNotExist e then .error ErrorKeyNotFound else .error e
  | .ok data => unmarshal data

/-- file.go: `fileStore.Set` — marshal, `MkdirAll(directory)`, write the
backing file. -/
def fileSet {V : Type} (marshal : V → Except Err String) (fs : FileSys)
    (directory key : String) (v : V) : Except Err Unit × FileSys :=
  let filename := goJoin directory key
  match marshal v with
  | .error e => (.error e, fs)
  | .ok data =>
      match fsMkdirAll fs directory with
      | (.error e, fs1) => (.error e, fs1)
      | (.ok _, fs1) => fsWriteFile fs1 filename data

/-- file.go: `fileStore.List` — `ReadDir(directory)`; *any* error yields an
empty (nil) key list with no error. -/
def fileList (fs : FileSys) (directory : String) : Except Err (List String) :=
  match fsReadDir fs directory with
  | .error _ => .ok []
  | .ok names => .ok names

/-- file.go: `fileStore.Delete` — `os.Remove` of the backing file,
propagating *every* removal error; then best-effort `os.Remove` of the
directory, ignoring its result. -/
def fileDelete (fs : FileSys) (directory key : String) : Except Err Unit × FileSys :=
  let filename := goJoin directory key
  match fsRemove fs filename with
  | (.error e, fs1) => (.error e, fs1)
  | (.ok _, fs1) =>
      let r := fsRemove fs1 directory
      (.ok (), r.2)

/-- file.go `Get`, parameterised by the result of `ioutil.ReadFile`. -/
def fileGetWith {V : Type} (unmarshal : String → Except Err V)
    (readRes : Except Err String) : Except Err V :=
  match readRes with
  | .error e => if osIsNotExist e then .error ErrorKeyNotFound else .error e
  | .ok data => unmarshal data

/-- file.go `Set`, parameterised by the results of `json.Marshal`,
`os.MkdirAll`, and `ioutil.WriteFile`: each failure propagates. -/
def fileSetWith (marshalRes : Except Err String) (mkdirRes : Except Err Unit)
    (writeRes : Except Err Unit) : Except Err Unit :=
  match marshalRes with
  | .error e => .error e
  | .ok _ =>
      match mkdirRes with
      | .error e => .error e
      | .ok _ => writeRes

/-- file.go `List`, parameterised by the result of `ioutil.ReadDir` (already
projected to the entry names): *any* error is swallowed into `ok []`. -/
def fileListWith (readDirRes : Except Err (List String)) : Except Err (List String) :=
  match readDirRes with
  | .error _ => .ok []
  | .ok names => .ok names

/-- file.go `Delete`, parameterised by the results of the file `os.Remove`
and the best-effort directory `os.Remove`; the Bool records whether the
directory removal was attempted (it always is once the file removal
succeeds, and its result is always discarded). -/
def fileDeleteWith (removeRes : Except Err Unit) (rmdirRes : Except Err Unit) :
    Except Err Unit × Bool :=
  match removeRes with
  | .error e => (.error e, false)
  | .ok _ =>
      let _ := rmdirRes
      (.ok (), true)

/-! ## Shared helper lemmas -/

theorem lookupKV_setKV_self (m : KVMap) (k v : String) :
    lookupKV (setKV m k v) k = some v := by
  induction m with
  | nil => simp [setKV, lookupKV]
  | cons hd tl ih =>
      obtain ⟨a, w⟩ := hd
      by_cases h : a = k
      · simp [setKV, h, lookupKV]
      · simp [setKV, h, lookupKV, ih]

theorem lookupKV_setKV_ne (m : KVMap) (k k2 v : String) (h : k2 ≠ k) :
    lookupKV (setKV m k v) k2 = lookupKV m k2 := by
  induction m with
  | nil => simp [setKV, lookupKV, Ne.symm h]
  | cons hd tl ih =>
      obtain ⟨a, w⟩ := hd
      by_cases ha : a = k
      · subst ha
        simp [setKV, lookupKV, Ne.symm h]
      · simp [setKV, ha, lookupKV, ih]

theorem lookupKV_removeKV_ne (m : KVMap) (k k2 : String) (h : k2 ≠ k) :
    lookupKV (removeKV m k) k2 = lookupKV m k2 := by
  induction m with
  | nil => simp [removeKV, lookupKV]
  | cons hd tl ih =>
      obtain ⟨a, w⟩ := hd
      by_cases ha : a = k
      · subst ha
        simp [removeKV, lookupKV, Ne.symm h, ih]
      · simp [removeKV, ha, lookupKV, ih]

theorem applyMergePatch_single_set (m : KVMap) (k v : String) :
    applyMergePatch m [(k, some v)] = setKV m k v := rfl

theorem applyMergePatch_single_remove (m : KVMap) (k : String) :
    applyMergePatch m [(k, none)] = removeKV m k := rfl

theorem strAppend_data (a b : String) : (a ++ b).data = a.data ++ b.data :=
  String.data_append a b

theorem strAppend_left_cancel {p a b : String} (h : p ++ a = p ++ b) : a = b := by
  have hd := congrArg String.data h
  simp only [strAppend_data] at hd
  exact String.ext (List.append_cancel_left hd)

theorem strHasPfx_append (p t : String) : strHasPfx p (p ++ t) = true := by
  simp [strHasPfx, strAppend_data, List.isPrefixOf_iff_prefix]

theorem strTrimPfx_append (p t : String) : strTrimPfx p (p ++ t) = t := by
  simp only [strTrimPfx, strHasPfx_append, if_true, strAppend_data]
  rw [List.drop_left]

theorem strHasPfx_of_len (p s : String) (h : s.data.length < p.data.length) :
    strHasPfx p s = false := by
  by_contra hne
  have hp : p.data.isPrefixOf s.data = true := by
    simpa [strHasPfx] using hne
  have := (List.isPrefixOf_iff_prefix.mp hp).length_le
  omega

theorem ne_of_strHasPfx_false {p s : String} (h : strHasPfx p s = false)
    (t : String) : s ≠ p ++ t := by
  intro he
  subst he
  rw [strHasPfx_append] at h
  exact Bool.false_ne_true h.symm

theorem append_ne_left (dir t : String) (ht : t.data.length ≠ 0) :
    dir ++ t ≠ dir := by
  intro h
  have hd := congrArg (fun s => s.data.length) h
  simp only [strAppend_data, List.length_append] at hd
  omega

/-! ## Claim C9 -/

/-- C9: an error is classified as "container absent" only when it is a
direct (unwrapped) `*errors.StatusError` whose status code equals exactly
404; a 404 delivered as a wrapped error is treated as a transport failure
and propagated by Get/List/Delete, not normalized to not-found, empty-list,
or no-op-delete behaviour. -/
theorem C9_unwrapped_404_classification :
    (∀ e : Err, isResourceMissingError e = true ↔ e = .statusError 404) ∧
    (∀ (V : Type) (um : String → Except Err V) (k : String),
      configMapGetWith um (.error (.wrapped (.statusError 404))) k =
        .error (.wrapped (.statusError 404))) ∧
    (∀ (V : Type) (um : String → Except Err V) (k : String),
      secretGetWith um (.error (.wrapped (.statusError 404))) k =
        .error (.wrapped (.statusError 404))) ∧
    configMapListWith (.error (.wrapped (.statusError 404))) =
      .error (.wrapped (.statusError 404)) ∧
    (∀ dr : Except Err Unit,
      configMapDeleteWith (.error (.wrapped (.statusError 404))) dr =
        (.error (.wrapped (.statusError 404)), false)) := by
  refine ⟨?_, fun _ _ _ => rfl, fun _ _ _ => rfl, rfl, fun _ => rfl⟩
  intro e
  cases e <;> simp [isResourceMissingError]

/-! ## Claim C6 -/

/-- C6: for the ConfigMap, Secret and filesystem backends, whenever
Delete's key removal succeeds and the post-removal container holds zero
entries, a container deletion is attempted (second component `true`), and
any failure of that deletion is never surfaced: Delete still returns
success, whatever the deletion result is.  (For the filesystem backend the
directory removal is attempted after every successful file removal.) -/
theorem C6_empty_container_cleanup_swallowed :
    (∀ dr : Except Err Unit, configMapDeleteWith (.ok []) dr = (.ok (), true)) ∧
    (∀ dr : Except Err Unit, secretDeleteWith (.ok []) dr = (.ok (), true)) ∧
    (∀ rr : Except Err Unit, fileDeleteWith (.ok ()) rr = (.ok (), true)) :=
  ⟨fun _ => rfl, fun _ => rfl, fun _ => rfl⟩

/-! ## Claim C10 -/

/-- C10: the filesystem backend joins the directory with the raw key
without any sanitization, so a key containing path separators escapes the
bound directory: with directory `"data"` and key `"../x"` the backing file
path is `"x"`, which is outside `"data"`; Set writes, Get reads, and Delete
removes that outside file. -/
theorem C10_path_traversal_escape :
    goJoin "data" "../x" = "x" ∧
    strHasPfx "data/" (goJoin "data" "../x") = false ∧
    (fileSet (fun s => (.ok s : Except Err String)) ⟨[], []⟩ "data" "../x" "42").2.files
      = [("x", "42")] ∧
    fileGet (fun s => (.ok s : Except Err String)) ⟨[("x", "42")], []⟩ "data" "../x"
      = .ok "42" ∧
    (fileDelete ⟨[("x", "42")], ["data"]⟩ "data" "../x").1 = .ok () ∧
    (fileDelete ⟨[("x", "42")], ["data"]⟩ "data" "../x").2.files = [] :=
  ⟨by decide, by decide, rfl, rfl, rfl, rfl⟩

/-! ## Claim C7 -/

/-- C7: the secret backend's write/read asymmetry: Set writes the encoded
value only through the `stringData` field of its patch (the `data` field of
the Set patch is empty), Delete places its null tombstone in the `data`
field (the `stringData` field of the Delete patch is empty), and Get reads
the key from the materialized binary data map. -/
theorem C7_secret_stringData_asymmetry :
    (∀ key data : String,
      (secretSetPatch key data).stringData = [(key, some data)] ∧
      (secretSetPatch key data).data = []) ∧
    (∀ key : String,
      (secretDeletePatch key).data = [(key, none)] ∧
      (secretDeletePatch key).stringData = []) ∧
    (∀ (V : Type) (um : String → Except Err V) (d : KVMap) (key s : String),
      lookupKV d key = some s → secretGet um (some d) key = um s) := by
  refine ⟨fun _ _ => ⟨rfl, rfl⟩, fun _ => ⟨rfl, rfl⟩, ?_⟩
  intro V um d key s h
  simp [secretGet, secClientGet, h]

/-- Witness for C7: the Get clause applied at a concrete one-entry
materialized data map. -/
theorem C7_secret_stringData_asymmetry_witness :
    lookupKV [("k", "42")] "k" = some "42" ∧
    secretGet (fun s => (.ok s : Except Err String)) (some [("k", "42")]) "k" = .ok "42" :=
  ⟨rfl, C7_secret_stringData_asymmetry.2.2 String (fun s => .ok s) [("k", "42")] "k" "42" rfl⟩

/-! ## Claim C4 -/

/-- C4 counterexample: when the initial merge-patch fails with the
not-found classification and the implicit creation fails with 409
AlreadyExists, the creation failure is returned to the caller (it is not
tolerated, and no retried merge happens), contradicting the claim. -/
theorem C4_counterexample :
    configMapSetWith (fun _ => .error (.statusError 404))
      (fun _ => .error (.statusError 409)) 5 0 = some (.error (.statusError 409)) := rfl

/-- C4 amended: for the ConfigMap and Secret backends, when Set's initial
merge-patch fails with the not-found classification and the implicit
container creation fails with any error (an "already exists" failure
included), that creation error is returned to the caller and the retried
merge does not proceed (the result does not depend on any later patch or
create outcome); the merge is retried only when the creation succeeds. -/
theorem C4_create_failure_returned (pr : Nat → Except Err KVMap)
    (cr : Nat → Except Err Unit) (e : Err) (fuel : Nat)
    (hp : pr 0 = .error (.statusError 404)) (hc : cr 0 = .error e) :
    configMapSetWith pr cr (fuel + 1) 0 = some (.error e) ∧
    secretSetWith pr cr (fuel + 1) 0 = some (.error e) := by
  constructor
  · unfold configMapSetWith
    rw [hp, hc]
    rfl
  · unfold secretSetWith
    rw [hp, hc]
    rfl

/-- Witness for C4 amended: a patch stream that keeps failing 404 and a
create stream that fails 409 AlreadyExists. -/
theorem C4_create_failure_returned_witness :
    (fun _ : Nat => (.error (.statusError 404) : Except Err KVMap)) 0 =
      .error (.statusError 404) ∧
    (fun _ : Nat => (.error (.statusError 409) : Except Err Unit)) 0 =
      .error (.statusError 409) ∧
    configMapSetWith (fun _ => .error (.statusError 404))
      (fun _ => .error (.statusError 409)) 1 0 = some (.error (.statusError 409)) :=
  ⟨rfl, rfl,
    (C4_create_failure_returned (fun _ => .error (.statusError 404))
      (fun _ => .error (.statusError 409)) (.statusError 409) 0 rfl rfl).1⟩

/-! ## Claim C5 -/

/-- C5 counterexample: with every merge-patch attempt failing with the
not-found classification and every container creation succeeding, Set has
still not produced a result after 100 patch attempts — the retry sequence
is neither "at most once" nor terminating in that scenario. -/
theorem C5_counterexample :
    configMapSetWith (fun _ => .error (.statusError 404)) (fun _ => .ok ())
      100 0 = none := rfl

/-- C5 amended: Set's retry is implemented as unbounded recursion, not a
bounded loop: if every merge-patch attempt fails with the not-found
classification and every container creation succeeds, the recursion never
produces a result at any depth (for both the ConfigMap and the Secret
backend).  Termination relies on the backend's actual behaviour: against
the deterministic cluster semantics — where creating an existing container
fails and patching an existing container succeeds — Set terminates from
every starting state within recursion depth 2, i.e. with at most one
retried merge. -/
theorem C5_recursion_unbounded_but_depth2_deterministic :
    (∀ fuel i, configMapSetWith (fun _ => .error (.statusError 404))
      (fun _ => .ok ()) fuel i = none) ∧
    (∀ fuel i, secretSetWith (fun _ => .error (.statusError 404))
      (fun _ => .ok ()) fuel i = none) ∧
    (∀ (key data : String) (s : CMState), (cmSetGo key data 2 s).isSome = true) ∧
    (∀ (key data : String) (s : SecState), (secSetGo key data 2 s).isSome = true) := by
  refine ⟨?_, ?_, ?_, ?_⟩
  · intro fuel
    induction fuel with
    | zero => intro i; rfl
    | succ n ih =>
        intro i
        unfold configMapSetWith
        simpa [isResourceMissingError] using ih (i + 1)
  · intro fuel
    induction fuel with
    | zero => intro i; rfl
    | succ n ih =>
        intro i
        unfold secretSetWith
        simpa [isResourceMissingError] using ih (i + 1)
  · intro key data s
    cases s <;> rfl
  · intro key data s
    cases s <;> rfl

/-! ## Claim C1 -/

/-- C1 counterexample: for the filesystem backend, Delete of a key that was
never written (empty filesystem, no backing directory) returns the
`os.Remove` not-exist error instead of success — `fileStore.Delete`
propagates every removal error without an `os.IsNotExist` check. -/
theorem C1_counterexample :
    (fileDelete ⟨[], []⟩ "data" "k").1 = .error .fsNotExist := rfl

/-- C1 amended: for the ConfigMap, Secret and annotation backends, Delete
of a key that was never written (container absent, or container present
without the key) returns success with no error; the filesystem backend
instead returns the not-exist error produced by removing the absent
backing file. -/
theorem C1_delete_never_written (k : String) :
    configMapDelete none k = (.ok (), none) ∧
    (∀ d : KVMap, lookupKV d k = none → (configMapDelete (some d) k).1 = .ok ()) ∧
    secretDelete none k = (.ok (), none) ∧
    (∀ d : KVMap, lookupKV d k = none → (secretDelete (some d) k).1 = .ok ()) ∧
    (annotationDelete none k).1 = .ok () ∧
    (∀ anns : KVMap, lookupKV anns (annName k) = none →
      (annotationDelete (some anns) k).1 = .ok ()) ∧
    (∀ (fs : FileSys) (dir : String),
      lookupKV fs.files (goJoin dir k) = none →
      fs.dirs.contains (goJoin dir k) = false →
      (fileDelete fs dir k).1 = .error .fsNotExist) := by
  refine ⟨rfl, ?_, rfl, ?_, rfl, ?_, ?_⟩
  · intro d _
    simp only [configMapDelete, cmClientPatch]
    split <;> rfl
  · intro d _
    simp only [secretDelete, secClientPatch]
    split <;> rfl
  · intro anns _
    rfl
  · intro fs dir hfile hdir
    have hdir2 : ¬ (goJoin dir k ∈ fs.dirs) := by simpa using hdir
    simp [fileDelete, fsRemove, hfile, hdir2]

/-- Witness for C1 amended, at key `"k"`, the empty data map, and the empty
filesystem with directory `"data"`. -/
theorem C1_delete_never_written_witness :
    lookupKV ([] : KVMap) "k" = none ∧
    lookupKV ([] : KVMap) (annName "k") = none ∧
    lookupKV (FileSys.files ⟨[], []⟩) (goJoin "data" "k") = none ∧
    (FileSys.dirs ⟨[], []⟩).contains (goJoin "data" "k") = false ∧
    (configMapDelete (some []) "k").1 = .ok () ∧
    (fileDelete ⟨[], []⟩ "data" "k").1 = .error .fsNotExist :=
  ⟨rfl, rfl, rfl, by decide,
    (C1_delete_never_written "k").2.1 [] rfl,
    (C1_delete_never_written "k").2.2.2.2.2.2 ⟨[], []⟩ "data" rfl (by decide)⟩

/-! ## Claim C3 -/

/-- C3 counterexample: the filesystem backend's List swallows every ReadDir
failure: a permission-denied error — which is not the "container absent"
condition (`osIsNotExist` is false for it) — yields an empty result with no
error instead of being propagated. -/
theorem C3_counterexample :
    osIsNotExist (.fsError "permission denied") = false ∧
    fileListWith (.error (.fsError "permission denied")) = .ok [] :=
  ⟨rfl, rfl⟩

/-- C3 amended: for the ConfigMap, Secret and annotation backends, every
operation propagates unchanged any underlying failure that is not
classified as "container absent" (and the annotation backend's Set
propagates every patch failure); for the filesystem backend, Get propagates
any non-not-exist read failure, Set propagates marshal, MkdirAll and
WriteFile failures, and Delete propagates every removal failure — but List
returns an empty result with no error for *every* ReadDir failure, not only
when the directory is absent. -/
theorem C3_error_propagation (e : Err) (he : isResourceMissingError e = false)
    (f : Err) (hf : osIsNotExist f = false) :
    (∀ (V : Type) (um : String → Except Err V) (k : String),
      configMapGetWith um (.error e) k = .error e) ∧
    configMapListWith (.error e) = .error e ∧
    (∀ dr, configMapDeleteWith (.error e) dr = (.error e, false)) ∧
    (∀ cr fuel, configMapSetWith (fun _ => .error e) cr (fuel + 1) 0 =
      some (.error e)) ∧
    (∀ (V : Type) (um : String → Except Err V) (k : String),
      secretGetWith um (.error e) k = .error e) ∧
    secretListWith (.error e) = .error e ∧
    (∀ dr, secretDeleteWith (.error e) dr = (.error e, false)) ∧
    (∀ cr fuel, secretSetWith (fun _ => .error e) cr (fuel + 1) 0 =
      some (.error e)) ∧
    (∀ (V : Type) (um : String → Except Err V) (k : String),
      annotationGetWith um (.error e) k = .error e) ∧
    annotationListWith (.error e) = .error e ∧
    annotationDeleteWith (.error e) = .error e ∧
    (∀ e2 : Err, annotationSetWith (.error e2) = .error e2) ∧
    (∀ (V : Type) (um : String → Except Err V),
      fileGetWith um (.error f) = .error f) ∧
    (∀ (d : String) (wr : Except Err Unit),
      fileSetWith (.ok d) (.error f) wr = .error f) ∧
    (∀ d : String, fileSetWith (.ok d) (.ok ()) (.error f) = .error f) ∧
    (∀ (e2 : Err) (rr : Except Err Unit),
      fileDeleteWith (.error e2) rr = (.error e2, false)) ∧
    (∀ e2 : Err, fileListWith (.error e2) = .ok []) := by
  refine ⟨?_, ?_, ?_, ?_, ?_, ?_, ?_, ?_, ?_, ?_, ?_,
    fun _ => rfl, ?_, fun _ _ => rfl, fun _ => rfl, fun _ _ => rfl, fun _ => rfl⟩
  · intro V um k
    simp [configMapGetWith, he]
  · simp [configMapListWith, he]
  · intro dr
    simp [configMapDeleteWith, he]
  · intro cr fuel
    unfold configMapSetWith
    simp [he]
  · intro V um k
    simp [secretGetWith, he]
  · simp [secretListWith, he]
  · intro dr
    simp [secretDeleteWith, he]
  · intro cr fuel
    unfold secretSetWith
    simp [he]
  · intro V um k
    simp [annotationGetWith, he]
  · simp [annotationListWith, he]
  · simp [annotationDeleteWith, he]
  · intro V um
    simp [fileGetWith, hf]

/-- Witness for C3 amended, at a permission-denied transport error and a
permission-denied filesystem error. -/
theorem C3_error_propagation_witness :
    isResourceMissingError (.otherError "permission denied") = false ∧
    osIsNotExist (.fsError "permission denied") = false ∧
    configMapListWith (.error (.otherError "permission denied")) =
      .error (.otherError "permission denied") ∧
    fileListWith (.error (.fsError "permission denied")) = .ok [] :=
  ⟨rfl, rfl,
    (C3_error_propagation (.otherError "permission denied") rfl
      (.fsError "permission denied") rfl).2.1,
    (C3_error_propagation (.otherError "permission denied") rfl
      (.fsError "permission denied") rfl).2.2.2.2.2.2.2.2.2.2.2.2.2.2.2.2
      (.fsError "permission denied")⟩

/-! ## Claim C2 -/

/-- C2: for every backend, every key and every codec-serializable value
(one whose marshalled bytes unmarshal back to it), Get performed after a
successful Set of that key — with no intervening Delete — returns a value
equal to the one set. -/
theorem C2_get_after_set (V : Type) (marshal : V → Except Err String)
    (unmarshal : String → Except Err V) (v : V) (enc : String)
    (hm : marshal v = .ok enc) (hu : unmarshal enc = .ok v) :
    (∀ (s s2 : CMState) (key : String),
      configMapSet marshal s key v = some (.ok (), s2) →
      configMapGet unmarshal s2 key = .ok v) ∧
    (∀ (s s2 : SecState) (key : String),
      secretSet marshal s key v = some (.ok (), s2) →
      secretGet unmarshal s2 key = .ok v) ∧
    (∀ (s s2 : AnnState) (key : String),
      annotationSet marshal s key v = (.ok (), s2) →
      annotationGet unmarshal s2 key = .ok v) ∧
    (∀ (fs fs2 : FileSys) (directory key : String),
      fileSet marshal fs directory key v = (.ok (), fs2) →
      fileGet unmarshal fs2 directory key = .ok v) := by
  refine ⟨?_, ?_, ?_, ?_⟩
  · intro s s2 key h
    simp only [configMapSet, hm] at h
    cases s with
    | none =>
        simp only [cmSetGo, cmClientPatch, cmClientCreate, isResourceMissingError,
          configMapSetPatch, applyMergePatch_single_set] at h
        injection h with h
        injection h with _ h2
        subst h2
        simp [configMapGet, cmClientGet, lookupKV_setKV_self, hu]
    | some d =>
        simp only [cmSetGo, cmClientPatch, configMapSetPatch,
          applyMergePatch_single_set] at h
        injection h with h
        injection h with _ h2
        subst h2
        simp [configMapGet, cmClientGet, lookupKV_setKV_self, hu]
  · intro s s2 key h
    simp only [secretSet, hm] at h
    cases s with
    | none =>
        simp only [secSetGo, secClientPatch, secClientCreate, isResourceMissingError,
          secretSetPatch, applyMergePatch, applyMergePatch_single_set] at h
        injection h with h
        injection h with _ h2
        subst h2
        simp [secretGet, secClientGet, lookupKV_setKV_self, hu]
    | some d =>
        simp only [secSetGo, secClientPatch, secretSetPatch, applyMergePatch,
          applyMergePatch_single_set] at h
        injection h with h
        injection h with _ h2
        subst h2
        simp [secretGet, secClientGet, lookupKV_setKV_self, hu]
  · intro s s2 key h
    simp only [annotationSet, hm] at h
    cases s with
    | none => simp [annClientPatch] at h
    | some anns =>
        simp only [annClientPatch, annotationSetPatch,
          applyMergePatch_single_set] at h
        injection h with _ h2
        subst h2
        simp [annotationGet, annClientGet, lookupKV_setKV_self, hu]
  · intro fs fs2 directory key h
    simp only [fileSet, hm, fsMkdirAll] at h
    by_cases hd : fs.dirs.contains directory = true
    · simp only [hd, if_true, fsWriteFile] at h
      injection h with _ h2
      subst h2
      simp [fileGet, fsReadFile, lookupKV_setKV_self, hu]
    · simp only [hd, if_false, fsWriteFile] at h
      injection h with _ h2
      subst h2
      simp [fileGet, fsReadFile, lookupKV_setKV_self, hu]

/-- Witness for C2: the identity string codec, value `"42"`, key `"k"`,
starting from an absent ConfigMap. -/
theorem C2_get_after_set_witness :
    (fun s => (.ok s : Except Err String)) "42" = .ok "42" ∧
    configMapGet (fun s => (.ok s : Except Err String)) (some [("k", "42")]) "k" =
      .ok "42" :=
  ⟨rfl,
    (C2_get_after_set String (fun s => .ok s) (fun s => .ok s) "42" "42" rfl rfl).1
      none (some [("k", "42")]) "k" rfl⟩

/-! ## Supporting lemmas for the frame/isolation claim -/

theorem strHasPfx_true_exists {p a : String} (h : strHasPfx p a = true) :
    ∃ t : String, a = p ++ t := by
  have hp : p.data <+: a.data := List.isPrefixOf_iff_prefix.mp h
  obtain ⟨t, ht⟩ := hp
  refine ⟨String.mk t, ?_⟩
  apply String.ext
  rw [strAppend_data]
  exact ht.symm

theorem mem_annotationListKeys (anns : KVMap) (k : String) :
    k ∈ annotationListKeys anns ↔ (annPfx ++ "/" ++ k) ∈ keysOf anns := by
  unfold annotationListKeys keysOf
  rw [List.mem_filterMap, List.mem_map]
  constructor
  · rintro ⟨⟨a, w⟩, hmem, hf⟩
    by_cases hp : strHasPfx (annPfx ++ "/") a = true
    · obtain ⟨t, rfl⟩ := strHasPfx_true_exists hp
      rw [if_pos hp, strTrimPfx_append] at hf
      injection hf with hf
      subst hf
      exact ⟨(annPfx ++ "/" ++ t, w), hmem, rfl⟩
    · rw [if_neg hp] at hf
      cases hf
  · rintro ⟨⟨a, w⟩, hmem, ha⟩
    simp only at ha
    subst ha
    refine ⟨(annPfx ++ "/" ++ k, w), hmem, ?_⟩
    rw [if_pos (strHasPfx_append (annPfx ++ "/") k), strTrimPfx_append]

theorem slash_append_len (k : String) : ("/" ++ k).data.length = 1 + k.data.length := by
  rw [strAppend_data, List.length_append]
  rfl

theorem isDirectChild_self (dir : String) : isDirectChild dir dir = none := by
  have h : strHasPfx (dir ++ "/") dir = false := by
    apply strHasPfx_of_len
    rw [strAppend_data, List.length_append]
    have h1 : ("/" : String).data.length = 1 := rfl
    omega
  simp [isDirectChild, h]

theorem isDirectChild_append (dir k : String) (h : k.data.contains '/' = false) :
    isDirectChild dir (dir ++ "/" ++ k) = some k := by
  unfold isDirectChild
  rw [strHasPfx_append, if_pos rfl, strAppend_data (dir ++ "/") k, List.drop_left]
  have h2 : ¬ ('/' ∈ k.data) := by simpa using h
  simp [h2]

theorem append_slash_ne_dir (dir k : String) : dir ++ "/" ++ k ≠ dir := by
  rw [String.append_assoc]
  apply append_ne_left
  rw [slash_append_len]
  omega

/-! ## Claim C8 -/

/-- C8: Set and Delete leave every other entry of the container unchanged.
For the ConfigMap, Secret, annotation and filesystem backends, the scenario
`Set(k1,v1); Set(k2,v2); Delete(k1)` (run against a fresh container: absent
ConfigMap/Secret, a host resource with no annotations, an empty filesystem;
for the filesystem backend under the stated path-shape side conditions on
the keys) leaves `k2` retrievable with value `v2` and List returning
exactly `[k2]`.  For the annotation backend additionally: a key is listed
iff the prefixed annotation `kubestore/key` is present (so annotations not
carrying the fixed prefix are never listed), and Set/Delete of any logical
key never modify an annotation whose name does not carry the prefix. -/
theorem C8_frame_isolation (V : Type) (marshal : V → Except Err String)
    (unmarshal : String → Except Err V) (k1 k2 : String) (v1 v2 : V)
    (e1 e2 : String) (hk : k1 ≠ k2)
    (hm1 : marshal v1 = .ok e1) (hm2 : marshal v2 = .ok e2)
    (hu2 : unmarshal e2 = .ok v2) :
    (∃ s1 s2 s3 : CMState,
      configMapSet marshal none k1 v1 = some (.ok (), s1) ∧
      configMapSet marshal s1 k2 v2 = some (.ok (), s2) ∧
      configMapDelete s2 k1 = (.ok (), s3) ∧
      configMapGet unmarshal s3 k2 = .ok v2 ∧
      configMapList s3 = .ok [k2]) ∧
    (∃ s1 s2 s3 : SecState,
      secretSet marshal none k1 v1 = some (.ok (), s1) ∧
      secretSet marshal s1 k2 v2 = some (.ok (), s2) ∧
      secretDelete s2 k1 = (.ok (), s3) ∧
      secretGet unmarshal s3 k2 = .ok v2 ∧
      secretList s3 = .ok [k2]) ∧
    (∃ s1 s2 s3 : AnnState,
      annotationSet marshal (some []) k1 v1 = (.ok (), s1) ∧
      annotationSet marshal s1 k2 v2 = (.ok (), s2) ∧
      annotationDelete s2 k1 = (.ok (), s3) ∧
      annotationGet unmarshal s3 k2 = .ok v2 ∧
      annotationList s3 = .ok [k2]) ∧
    (∀ dir : String, goJoin dir k1 = dir ++ "/" ++ k1 →
      goJoin dir k2 = dir ++ "/" ++ k2 →
      k2.data.contains '/' = false →
      ∃ fs1 fs2 fs3 : FileSys,
        fileSet marshal ⟨[], []⟩ dir k1 v1 = (.ok (), fs1) ∧
        fileSet marshal fs1 dir k2 v2 = (.ok (), fs2) ∧
        fileDelete fs2 dir k1 = (.ok (), fs3) ∧
        fileGet unmarshal fs3 dir k2 = .ok v2 ∧
        fileList fs3 dir = .ok [k2]) ∧
    (∀ (anns : KVMap) (k : String),
      k ∈ annotationListKeys anns ↔ (annPfx ++ "/" ++ k) ∈ keysOf anns) ∧
    (∀ (anns : KVMap) (key name : String) (w : V),
      strHasPfx (annPfx ++ "/") name = false →
      annLookup (annotationSet marshal (some anns) key w).2 name = lookupKV anns name ∧
      annLookup (annotationDelete (some anns) key).2 name = lookupKV anns name) := by
  have hk21 : k2 ≠ k1 := Ne.symm hk
  refine ⟨?_, ?_, ?_, ?_, mem_annotationListKeys, ?_⟩
  · refine ⟨some [(k1, e1)], some [(k1, e1), (k2, e2)], some [(k2, e2)], ?_, ?_, ?_, ?_, ?_⟩
    · unfold configMapSet
      rw [hm1]
      rfl
    · unfold configMapSet
      rw [hm2]
      simp [cmSetGo, cmClientPatch, configMapSetPatch, applyMergePatch, setKV, hk]
    · simp [configMapDelete, cmClientPatch, configMapDeletePatch, applyMergePatch,
        removeKV, hk21]
    · simp [configMapGet, cmClientGet, lookupKV, hu2]
    · rfl
  · refine ⟨some [(k1, e1)], some [(k1, e1), (k2, e2)], some [(k2, e2)], ?_, ?_, ?_, ?_, ?_⟩
    · unfold secretSet
      rw [hm1]
      rfl
    · unfold secretSet
      rw [hm2]
      simp [secSetGo, secClientPatch, secretSetPatch, applyMergePatch, setKV, hk]
    · simp [secretDelete, secClientPatch, secretDeletePatch, applyMergePatch,
        removeKV, hk21]
    · simp [secretGet, secClientGet, lookupKV, hu2]
    · rfl
  · have hann : annName k1 ≠ annName k2 := fun h => hk (strAppend_left_cancel h)
    have hann21 : annName k2 ≠ annName k1 := Ne.symm hann
    refine ⟨some [(annName k1, e1)], some [(annName k1, e1), (annName k2, e2)],
      some [(annName k2, e2)], ?_, ?_, ?_, ?_, ?_⟩
    · unfold annotationSet
      rw [hm1]
      rfl
    · unfold annotationSet
      rw [hm2]
      simp [annClientPatch, annotationSetPatch, applyMergePatch, setKV, hann]
    · simp [annotationDelete, annClientPatch, annotationDeletePatch, applyMergePatch,
        removeKV, hann21]
    · simp [annotationGet, annClientGet, lookupKV, hu2]
    · simp [annotationList, annClientGet, annotationListKeys,
        strHasPfx_append, strTrimPfx_append, annName]
  · intro dir hj1 hj2 hsl
    have hp12 : dir ++ "/" ++ k1 ≠ dir ++ "/" ++ k2 := fun h => hk (strAppend_left_cancel h)
    have hp21 : dir ++ "/" ++ k2 ≠ dir ++ "/" ++ k1 := Ne.symm hp12
    have hp2d : dir ++ "/" ++ k2 ≠ dir := append_slash_ne_dir dir k2
    refine ⟨⟨[(dir ++ "/" ++ k1, e1)], [dir]⟩,
      ⟨[(dir ++ "/" ++ k1, e1), (dir ++ "/" ++ k2, e2)], [dir]⟩,
      ⟨[(dir ++ "/" ++ k2, e2)], [dir]⟩, ?_, ?_, ?_, ?_, ?_⟩
    · unfold fileSet
      rw [hm1, hj1]
      rfl
    · unfold fileSet
      rw [hm2, hj2]
      simp [fsMkdirAll, fsWriteFile, setKV, hp12]
    · have hl1 : lookupKV [(dir ++ "/" ++ k1, e1), (dir ++ "/" ++ k2, e2)]
          (dir ++ "/" ++ k1) = some e1 := by
        simp [lookupKV]
      have hr1 : removeKV [(dir ++ "/" ++ k1, e1), (dir ++ "/" ++ k2, e2)]
          (dir ++ "/" ++ k1) = [(dir ++ "/" ++ k2, e2)] := by
        simp [removeKV, hp21]
      have h1 : fsRemove ⟨[(dir ++ "/" ++ k1, e1), (dir ++ "/" ++ k2, e2)], [dir]⟩
          (dir ++ "/" ++ k1) = (.ok (), ⟨[(dir ++ "/" ++ k2, e2)], [dir]⟩) := by
        simp only [fsRemove, hl1, hr1]
      have hl2 : lookupKV [(dir ++ "/" ++ k2, e2)] dir = none := by
        simp [lookupKV, hp2d]
      have hne : dirNonEmpty ⟨[(dir ++ "/" ++ k2, e2)], [dir]⟩ dir = true := by
        simp [dirNonEmpty, underDir, strHasPfx_append]
      have h2 : fsRemove ⟨[(dir ++ "/" ++ k2, e2)], [dir]⟩ dir =
          (.error (.fsError "directory not empty"), ⟨[(dir ++ "/" ++ k2, e2)], [dir]⟩) := by
        simp only [fsRemove, hl2, hne]
        simp
      unfold fileDelete
      rw [hj1]
      simp only [h1, h2]
    · simp [fileGet, hj2, fsReadFile, lookupKV, hu2]
    · have hc : isDirectChild dir (dir ++ "/" ++ k2) = some k2 :=
        isDirectChild_append dir k2 hsl
      simp [fileList, fsReadDir, List.filterMap_cons, isDirectChild_self, hc]
  · intro anns key name w hp
    have hne : name ≠ annName key := ne_of_strHasPfx_false hp key
    constructor
    · unfold annotationSet
      cases hmw : marshal w with
      | error e => simp [annLookup]
      | ok data =>
          simp [annClientPatch, annotationSetPatch, applyMergePatch, annLookup,
            lookupKV_setKV_ne anns (annName key) name data hne]
    · simp [annotationDelete, annClientPatch, annotationDeletePatch, applyMergePatch,
        annLookup, lookupKV_removeKV_ne anns (annName key) name hne]

/-- Witness for C8: the identity string codec, keys `"a"` and `"b"`,
values `"1"` and `"2"`. -/
theorem C8_frame_isolation_witness :
    (("a" : String) ≠ "b") ∧
    (fun s => (.ok s : Except Err String)) "1" = .ok "1" ∧
    (fun s => (.ok s : Except Err String)) "2" = .ok "2" ∧
    ((∃ s1 s2 s3 : CMState,
      configMapSet (fun s => (.ok s : Except Err String)) none "a" "1" = some (.ok (), s1) ∧
      configMapSet (fun s => (.ok s : Except Err String)) s1 "b" "2" = some (.ok (), s2) ∧
      configMapDelete s2 "a" = (.ok (), s3) ∧
      configMapGet (fun s => (.ok s : Except Err String)) s3 "b" = .ok "2" ∧
      configMapList s3 = .ok ["b"]) ∧
    (∃ s1 s2 s3 : SecState,
      secretSet (fun s => (.ok s : Except Err String)) none "a" "1" = some (.ok (), s1) ∧
      secretSet (fun s => (.ok s : Except Err String)) s1 "b" "2" = some (.ok (), s2) ∧
      secretDelete s2 "a" = (.ok (), s3) ∧
      secretGet (fun s => (.ok s : Except Err String)) s3 "b" = .ok "2" ∧
      secretList s3 = .ok ["b"]) ∧
    (∃ s1 s2 s3 : AnnState,
      annotationSet (fun s => (.ok s : Except Err String)) (some []) "a" "1" = (.ok (), s1) ∧
      annotationSet (fun s => (.ok s : Except Err String)) s1 "b" "2" = (.ok (), s2) ∧
      annotationDelete s2 "a" = (.ok (), s3) ∧
      annotationGet (fun s => (.ok s : Except Err String)) s3 "b" = .ok "2" ∧
      annotationList s3 = .ok ["b"]) ∧
    (∀ dir : String, goJoin dir "a" = dir ++ "/" ++ "a" →
      goJoin dir "b" = dir ++ "/" ++ "b" →
      ("b" : String).data.contains '/' = false →
      ∃ fs1 fs2 fs3 : FileSys,
        fileSet (fun s => (.ok s : Except Err String)) ⟨[], []⟩ dir "a" "1" = (.ok (), fs1) ∧
        fileSet (fun s => (.ok s : Except Err String)) fs1 dir "b" "2" = (.ok (), fs2) ∧
        fileDelete fs2 dir "a" = (.ok (), fs3) ∧
        fileGet (fun s => (.ok s : Except Err String)) fs3 dir "b" = .ok "2" ∧
        fileList fs3 dir = .ok ["b"]) ∧
    (∀ (anns : KVMap) (k : String),
      k ∈ annotationListKeys anns ↔ (annPfx ++ "/" ++ k) ∈ keysOf anns) ∧
    (∀ (anns : KVMap) (key name : String) (w : String),
      strHasPfx (annPfx ++ "/") name = false →
      annLookup (annotationSet (fun s => (.ok s : Except Err String)) (some anns) key w).2 name =
        lookupKV anns name ∧
      annLookup (annotationDelete (some anns) key).2 name = lookupKV anns name)) :=
  ⟨by decide, rfl, rfl,
    C8_frame_isolation String (fun s => .ok s) (fun s => .ok s) "a" "b" "1" "2" "1" "2"
      (by decide) rfl rfl rfl⟩

end Kubestore
